import Mathlib

/-!
Verification development for the agent-service code-review repository.

The Python sources are shallowly embedded as executable Lean definitions:

* `src/tools/grep_tool.py`  → the `BLACKLIST_PATTERNS` list, `should_skip_path`,
  and the three `GrepTools` methods `find_files`, `find_text_in_files`,
  `read_file`, over an explicit filesystem tree.
* `src/tools/bash_tool.py`  → `create_runtime_cli_tool` / `get_bash_tool`,
  with the produced command tool modelled as a pure function of the child
  process outcome (return code, stdout, stderr).
* `src/agent/agent.py`      → `_validate_pr_url`, `_create_error_response`
  and the `_run_async_impl` review workflow, with the LLM collaborators
  modelled as oracles supplying the value each stage writes to its declared
  state key, and `json.loads` as an abstract decoder parameter.

Machine strings are Lean `String`s (Python `len`/slicing count code points,
as does Lean's `String.length`/`String.take`).  Paths are lists of components
of the already-resolved absolute POSIX path; `Path(p).resolve()` is therefore
the identity in the model and callers quantify over resolved paths directly.
All embedded functions are total: the Python originals catch their own
exceptions and return error strings, which the model mirrors.
-/

/-! ## fnmatch: Unix shell-style pattern matching (Python `fnmatch` module)

`fnmatch.fnmatch` normalises both arguments with `os.path.normcase`, which is
the identity on POSIX, so on the platform this repository targets it agrees
with `fnmatch.fnmatchcase`; both are modelled by `globMatch`.  Semantics of
`fnmatch.translate`: `*` matches any character sequence (including `/`),
`?` matches exactly one character, `[seq]` a character class with ranges and
`!` negation, and an unterminated `[` is a literal `[`.  The matcher is
written with an explicit fuel argument (each step shortens pattern+input, so
`|pattern| + |input| + 1` fuel always suffices) to keep it structurally
recursive and kernel-evaluable. -/

/-- Character-class membership with `a-b` ranges, as in `fnmatch.translate`. -/
def classMatch (c : Char) : List Char → Bool
  | a :: '-' :: b :: rest => (a ≤ c && c ≤ b) || classMatch c rest
  | a :: rest => (c = a) || classMatch c rest
  | [] => false

/-- Scan for the closing `]` of a character class; `Option.none` means the
class is unterminated (then `[` is treated as a literal character). -/
def scanClass : List Char → Option (List Char × List Char)
  | [] => Option.none
  | ']' :: r => some ([], r)
  | c :: r => (scanClass r).map (fun p => (c :: p.1, p.2))

/-- Split the text after a `[` into (negation flag, class body, rest of the
pattern), following `fnmatch.translate`: an optional leading `!` negates, and
a `]` in first position is a literal member of the class. -/
def splitClass (l : List Char) : Option (Bool × List Char × List Char) :=
  match l with
  | '!' :: r =>
    (match r with
     | ']' :: r2 => (scanClass r2).map (fun p => (true, ']' :: p.1, p.2))
     | r2 => (scanClass r2).map (fun p => (true, p.1, p.2)))
  | r =>
    (match r with
     | ']' :: r2 => (scanClass r2).map (fun p => (false, ']' :: p.1, p.2))
     | r2 => (scanClass r2).map (fun p => (false, p.1, p.2)))

/-- Fuel-driven core of the glob matcher. -/
def globMatchAux : Nat → List Char → List Char → Bool
  | 0, _, _ => false
  | Nat.succ f, p, s =>
    match p with
    | [] => s.isEmpty
    | c :: ps =>
      if c = '*' then
        globMatchAux f ps s ||
          (match s with
           | [] => false
           | _ :: s2 => globMatchAux f (c :: ps) s2)
      else if c = '?' then
        (match s with
         | [] => false
         | _ :: s2 => globMatchAux f ps s2)
      else if c = '[' then
        (match splitClass ps with
         | Option.none =>
           (match s with
            | [] => false
            | d :: s2 => (d = '[') && globMatchAux f ps s2)
         | some (neg, cls, rest) =>
           (match s with
            | [] => false
            | d :: s2 => (classMatch d cls != neg) && globMatchAux f rest s2))
      else
        (match s with
         | [] => false
         | d :: s2 => (c = d) && globMatchAux f ps s2)

/-- `fnmatch.fnmatch(s, pat)` (equal to `fnmatch.fnmatchcase` on POSIX). -/
def globMatch (pat s : String) : Bool :=
  globMatchAux (pat.length + s.length + 1) pat.toList s.toList

/-! ## Paths and the working-directory confinement rule -/

/-- A resolved absolute POSIX path, as its list of components. -/
abbrev AbsPath := List String

/-- Join path components with `/` separators. -/
def joinSlash : List String → String
  | [] => ""
  | x :: xs =>
    match xs with
    | [] => x
    | _ :: _ => x ++ "/" ++ joinSlash xs

/-- `str(path)` for an absolute `pathlib.Path`. -/
def pathStr (p : AbsPath) : String := "/" ++ joinSlash p

/-- `str(path)` for a path relative to the searched directory
(`str(PurePath())` is `"."`, which Python renders for the empty relative
path). -/
def relStr (p : List String) : String :=
  match p with
  | [] => "."
  | _ => joinSlash p

/-- Python `str.startswith(".")` (kernel-evaluable form). -/
def startsWithDot (s : String) : Bool :=
  match s.toList with
  | '.' :: _ => true
  | [] => false
  | _ :: _ => false

/-- Split a character list on a separator character (Python `str.split(sep)`
for a one-character separator: the empty string yields one empty part). -/
def splitOnChar (sep : Char) : List Char → List (List Char)
  | [] => [[]]
  | c :: cs =>
    let r := splitOnChar sep cs
    if c = sep then [] :: r
    else
      match r with
      | h :: t => (c :: h) :: t
      | [] => [[c]]

/-- Python `str.strip()` with no argument: remove surrounding whitespace. -/
def pyStrip (s : String) : String :=
  String.mk (((s.toList.dropWhile Char.isWhitespace).reverse.dropWhile Char.isWhitespace).reverse)

/-- The confinement test of all three grep tools:
`self.working_dir in resolved_path.parents or self.working_dir == resolved_path`
(the source writes the negation).  For component lists, the parents of `p`
are exactly its proper prefixes, so the disjunction is prefix-or-equal. -/
def insideWorkingDir (working_dir p : AbsPath) : Bool :=
  working_dir.isPrefixOf p

/-- The confinement error text shared by the three grep tools. -/
def confinementError (p working_dir : AbsPath) : String :=
  "Error: " ++ pathStr p ++ " is not a subdirectory of " ++ pathStr working_dir ++
    ". Please provide a relative path, or a subdirectory of " ++ pathStr working_dir ++ "."

/-! ## Filesystem model

A directory tree with file contents.  A mutual pair is used (a node, and a
cons-list of named entries) so that every traversal below is plain structural
recursion and evaluates inside the kernel.  Entry order models the operating
system's directory enumeration order. -/

mutual
inductive FSNode where
  | file (content : String)
  | dir (entries : FSEntries)
deriving DecidableEq

inductive FSEntries where
  | nil
  | cons (name : String) (node : FSNode) (rest : FSEntries)
deriving DecidableEq
end

/-- The named entries of a directory as an ordinary list. -/
def FSEntries.toList : FSEntries → List (String × FSNode)
  | .nil => []
  | .cons name node rest => (name, node) :: rest.toList

/-- Look up the first entry with the given name. -/
def FSEntries.find : FSEntries → String → Option FSNode
  | .nil, _ => Option.none
  | .cons name node rest, n => if name = n then some node else rest.find n

/-- Follow a component path down the tree. -/
def FSNode.lookup : FSNode → List String → Option FSNode
  | n, [] => some n
  | .dir es, c :: cs =>
    (match es.find c with
     | some child => child.lookup cs
     | Option.none => Option.none)
  | .file _, _ :: _ => Option.none

def FSNode.isFile : FSNode → Bool
  | .file _ => true
  | .dir _ => false

/-! ## `src/tools/grep_tool.py` -/

/-- `BLACKLIST_PATTERNS`: common directories and files to skip. -/
def BLACKLIST_PATTERNS : List String :=
  [".git/*", "node_modules/*", ".next/*", ".turbo/*", "*.wasm", "*.woff2",
   "*.pack", "*.pack.gz", "*.tar.zst", "*.pyc", "__pycache__/*", "*.so",
   "*.dll", "*.dylib", "*.exe", "*.bin", "*.dat", "*.db", "*.sqlite",
   "*.sqlite3", "*.log", "*.cache", "*.tmp", "*.temp", "*.swp", "*.swo",
   "*.bak", "*.backup", "*.orig", "*.rej", "*.patch", "*.diff", "*.tar",
   "*.gz", "*.zip", "*.rar", "*.7z", "*.bz2", "*.xz", "*.lzma", "*.lz4",
   "*.zst", "*.tgz", "*.tbz2", "*.txz", "*.tlz", "*.tlz4", "*.tzst",
   "*.pdf", "*.docx", "*.doc", "*.xls", "*.xlsx", "*.ppt", "*.pptx",
   "*.png", "*.jpg", "*.jpeg", "*.gif", "*.bmp", "*.tiff", "*.ico"]

/-- `FILE_READ_CHAR_LIMIT` from `grep_tool.py`. -/
def FILE_READ_CHAR_LIMIT : Nat := 5000

/-- `FILE_READ_TRUNCATED_TEXT` from `grep_tool.py`. -/
def FILE_READ_TRUNCATED_TEXT : String := "<TRUNCATED>"

/-- `should_skip_path`: whether `str(path)` fnmatches any blacklist pattern. -/
def should_skip_path (path : AbsPath) : Bool :=
  BLACKLIST_PATTERNS.any (fun pat => globMatch pat (pathStr path))

/-- The implicit pattern widening shared by `find_files` (line 132) and
`find_text_in_files` (line 247): if `"*" not in unix_pattern`, the pattern is
replaced by `f"*{unix_pattern}*"`. -/
def widenPattern (unix_pattern : String) : String :=
  if unix_pattern.toList.contains '*' then unix_pattern else "*" ++ unix_pattern ++ "*"

/-- Does any component of the relative path start with a dot?
(`any(part.startswith(".") for part in file_path.relative_to(resolved_path).parts)`). -/
def hasDotPart (rel : List String) : Bool :=
  rel.any (fun part => startsWithDot part)

/-- Processing of `itertools.chain(dirs, files)` at one `os.walk` root:
for each entry, skip it if blacklisted or dot-prefixed, then append its
path relative to the search root to the file or directory match list when
the (absolute) path fnmatches the pattern.  Returns (files, directories). -/
def processEntries (base : AbsPath) (pat : String) (rel : List String) :
    List (String × FSNode) → List String × List String
  | [] => ([], [])
  | (name, node) :: restEntries =>
    let r := processEntries base pat rel restEntries
    let fp := base ++ rel ++ [name]
    if should_skip_path fp then r
    else if hasDotPart (rel ++ [name]) then r
    else if globMatch pat (pathStr fp) then
      (if node.isFile then (relStr (rel ++ [name]) :: r.1, r.2)
       else (r.1, relStr (rel ++ [name]) :: r.2))
    else r

/-- The per-root work of the `os.walk` loop of `find_files`: split the
entries into `dirs` and `files` as `os.walk` reports them, prune blacklisted
directories (`dirs[:] = ...`), and match the chain `dirs + files`. -/
def walkHere (base : AbsPath) (pat : String) (rel : List String)
    (entries : List (String × FSNode)) : List String × List String :=
  let dirs := entries.filter (fun e => !e.2.isFile)
  let files := entries.filter (fun e => e.2.isFile)
  let pruned := dirs.filter (fun e => !should_skip_path (base ++ rel ++ [e.1]))
  processEntries base pat rel (pruned ++ files)

/-- Depth-first descent of `os.walk` into the non-pruned subdirectories, in
entry order: each visited root contributes its `walkHere` matches unless it
is deeper than `depth` (the `continue` in the source), followed by the
contributions of its own subtree. -/
def walkKids (base : AbsPath) (pat : String) (depth : Nat)
    (rel : List String) : FSEntries → List String × List String
  | .nil => ([], [])
  | .cons name node rest =>
    let r1 :=
      (match node with
       | .dir es2 =>
         if should_skip_path (base ++ rel ++ [name]) then ([], [])
         else
           let rel2 := rel ++ [name]
           let here :=
             if rel2.length > depth then ([], [])
             else walkHere base pat rel2 es2.toList
           let deep := walkKids base pat depth rel2 es2
           (here.1 ++ deep.1, here.2 ++ deep.2)
       | .file _ => ([], []))
    let r2 := walkKids base pat depth rel rest
    (r1.1 ++ r2.1, r1.2 ++ r2.2)

/-- The whole `os.walk(resolved_path)` loop of `find_files`, for the root at
relative position `rel` whose entries are `es`: the root itself is processed
(it is skipped when deeper than `depth`), then its subtree.  Results across
roots are concatenated in the depth-first preorder `os.walk` visits them. -/
def walkDirEntries (base : AbsPath) (pat : String) (depth : Nat)
    (rel : List String) (es : FSEntries) : List String × List String :=
  let here := if rel.length > depth then ([], []) else walkHere base pat rel es.toList
  let deep := walkKids base pat depth rel es
  (here.1 ++ deep.1, here.2 ++ deep.2)

/-- The file/directory match lists computed by `find_files` once the path
checks have passed, before formatting. -/
def find_files_matches (es : FSEntries) (resolved_path : AbsPath)
    (pattern : String) (depth : Nat) : List String × List String :=
  walkDirEntries resolved_path pattern depth [] es

/-- The final f-string of `find_files` (the triple-quoted literal keeps the
source indentation of its lines). -/
def formatFindFiles (file_matches dir_matches : List String) : String :=
  let delim := "\n  * "
  let files_part :=
    if file_matches.length > 0 then delim ++ String.intercalate delim file_matches
    else "\n  No files found"
  let dirs_part :=
    if dir_matches.length > 0 then delim ++ String.intercalate delim dir_matches
    else "\n  No directories found"
  "    Files:" ++ files_part ++ "\n\n    Directories:" ++ dirs_part ++ "\n\n    "

/-- `GrepTools.find_files(path, unix_pattern, depth=1, is_case_sensitive=False)`
without keyword-argument surplus.  `fs` is the filesystem rooted at `/`;
`working_dir` is the `GrepTools` working directory (resolved, as produced by
`Path.cwd()`); `path` is the resolved search path.  `is_case_sensitive`
selects `fnmatch.fnmatchcase` over `fnmatch.fnmatch`, which coincide on
POSIX, so both are `globMatch`. -/
def find_files (fs : FSNode) (working_dir : AbsPath) (path : AbsPath)
    (unix_pattern : String) (depth : Nat) (is_case_sensitive : Bool) : String :=
  let pattern := widenPattern unix_pattern
  if !insideWorkingDir working_dir path then confinementError path working_dir
  else
    match fs.lookup path with
    | Option.none => "Error: " ++ pathStr path ++ " does not exist"
    | some (.file _) => "Error: " ++ pathStr path ++ " is a file, not a directory"
    | some (.dir es) =>
      let m := find_files_matches es path pattern depth
      formatFindFiles m.1 m.2

/-- Python text-mode line iteration (`for line in f`): split keeping the
trailing newline on every line but possibly the last. -/
def splitLinesKeep (content : String) : List String :=
  if content = "" then []
  else
    let parts := (splitOnChar '\n' content.toList).map String.mk
    let last := parts.getLastD ""
    (parts.dropLast.map (fun p => p ++ "\n")) ++ (if last = "" then [] else [last])

/-- The per-file matching loop of `find_text_in_files`: each line (including
its newline) is fnmatched against the pattern; an over-long matching line is
redacted, otherwise the stripped line is reported with its 1-based number. -/
def fileLineMatches (find_text_char_limit : Nat) (pat : String) (content : String) :
    List String :=
  (splitLinesKeep content).enum.filterMap (fun iline =>
    if globMatch pat iline.2 then
      some (if iline.2.length > find_text_char_limit then
              "Line " ++ toString (iline.1 + 1) ++ ": <Too many characters>"
            else
              "Line " ++ toString (iline.1 + 1) ++ ": " ++ pyStrip iline.2)
    else Option.none)

/-- All files in the subtree, as (path relative to the search root, content),
in depth-first entry order (the enumeration order of `Path.rglob("*")`). -/
def collectFilesRec (rel : List String) : FSEntries → List (List String × String)
  | .nil => []
  | .cons name node rest =>
    (match node with
     | .file c => [(rel ++ [name], c)]
     | .dir es => collectFilesRec (rel ++ [name]) es) ++ collectFilesRec rel rest

/-- Direct children of the root that are files (`Path.iterdir()` order). -/
def directChildFiles : FSEntries → List (List String × String)
  | .nil => []
  | .cons name node rest =>
    (match node with
     | .file c => [([name], c)]
     | .dir _ => []) ++ directChildFiles rest

/-- The grouped output body of `find_text_in_files` for the selected files. -/
def renderTextMatches (find_text_char_limit : Nat) (pat : String)
    (pairs : List (List String × String)) : String :=
  String.join (pairs.filterMap (fun pc =>
    let ms := fileLineMatches find_text_char_limit pat pc.2
    if ms.isEmpty then Option.none
    else some ("\nPattern matches found in '" ++ relStr pc.1 ++ "':\n" ++
                 String.intercalate "\n" ms)))

/-- `GrepTools.find_text_in_files(unix_pattern, path, recursive=True,
is_case_sensitive=False)` without keyword-argument surplus.
`find_text_char_limit` is the constant imported from `patched_adk.config`,
kept as a parameter.  Exception handling while reading a file (skip with a
warning) has no counterpart because the model's files are always readable. -/
def find_text_in_files (fs : FSNode) (find_text_char_limit : Nat)
    (working_dir : AbsPath) (unix_pattern : String) (path : AbsPath)
    (recursive : Bool) (is_case_sensitive : Bool) : String :=
  if unix_pattern = "*" then
    "Error: pattern * is too broad. Please provide a more specific pattern"
  else
    let pattern := widenPattern unix_pattern
    if !insideWorkingDir working_dir path then confinementError path working_dir
    else
      match fs.lookup path with
      | Option.none => "Error: " ++ pathStr path ++ " does not exist"
      | some (.file c) =>
        let total := renderTextMatches find_text_char_limit pattern [([], c)]
        if total = "" then "Error: No matches found." else total
      | some (.dir es) =>
        let pairs :=
          if recursive then
            (collectFilesRec [] es).filter (fun pc =>
              !hasDotPart pc.1 && !should_skip_path (path ++ pc.1))
          else
            (directChildFiles es).filter (fun pc =>
              !should_skip_path (path ++ pc.1))
        let total := renderTextMatches find_text_char_limit pattern pairs
        if total = "" then "Error: No matches found." else total

/-- Line selection of `read_file`: keep the 1-based line numbers `i` with
`start_line ≤ i` (when given) and `i ≤ end_line` (when given); the source
`continue`s below the range and `break`s above it, which selects the same
lines because numbers increase. -/
def selectLines (start_line end_line : Option Int) (lines : List String) : List String :=
  lines.enum.filterMap (fun iline =>
    let i : Int := (iline.1 : Int) + 1
    if (match start_line with | some s => decide (i < s) | Option.none => false) then Option.none
    else if (match end_line with | some e => decide (i > e) | Option.none => false) then Option.none
    else some iline.2)

/-- Truncation applied by `read_file` to the assembled content. -/
def readFileTruncate (content : String) : String :=
  if content.length > FILE_READ_CHAR_LIMIT then
    content.take FILE_READ_CHAR_LIMIT ++ "\n" ++ FILE_READ_TRUNCATED_TEXT
  else content

/-- `GrepTools.read_file(path, start_line=None, end_line=None)`. -/
def read_file (fs : FSNode) (working_dir : AbsPath) (path : AbsPath)
    (start_line end_line : Option Int) : String :=
  if !insideWorkingDir working_dir path then confinementError path working_dir
  else
    match fs.lookup path with
    | some (.file content) =>
      (match start_line, end_line with
       | Option.none, Option.none => readFileTruncate content
       | _, _ => readFileTruncate (String.join (selectLines start_line end_line (splitLinesKeep content))))
    | _ => "Error: " ++ pathStr path ++ " is not a file"

/-! ## `src/tools/bash_tool.py`

`create_runtime_cli_tool` generates (via `exec`) one async function per
allowlisted command.  The generated function is modelled as the pair of its
closed-over data (`CliTool`) together with `CliTool.invoke`, the pure result
of one invocation as a function of the child-process outcome: arguments,
return code and the decoded stdout/stderr.  The generated code can only ever
start its baked-in `command`; logging is side-effect only.  `truncate_str`
is the sentinel imported from `patched_adk.config`, kept as a parameter. -/

/-- CPython `repr` of a string: single quotes, or double quotes when the
string contains a single quote but no double quote; the backslash and the
chosen quote are escaped.  (Non-printable characters are not escaped in the
model.) -/
def pyReprEscape (q : Char) (s : String) : String :=
  String.mk ((s.toList.map (fun c => if c = '\\' || c = q then ['\\', c] else [c])).flatten)

def pyStrRepr (s : String) : String :=
  if s.toList.contains '\'' && !(s.toList.contains '"') then
    "\"" ++ pyReprEscape '"' s ++ "\""
  else
    "'" ++ pyReprEscape '\'' s ++ "'"

/-- Python `str` of a list of strings, as interpolated by `f"... {args} ..."`. -/
def pyListRepr (args : List String) : String :=
  "[" ++ String.intercalate ", " (args.map pyStrRepr) ++ "]"

/-- The closure data of one generated `{command}_cli` tool. -/
structure CliTool where
  command : String
  truncate_length : Option Nat
deriving DecidableEq

/-- `create_runtime_cli_tool(command, truncate_length)`. -/
def create_runtime_cli_tool (command : String) (truncate_length : Option Nat) : CliTool :=
  { command := command, truncate_length := truncate_length }

/-- Result of one invocation of a generated tool, given the child process
outcome.  On non-zero exit the formatted error string is returned (the call
never raises); on success the decoded stdout is truncated to
`truncate_length` characters plus the `truncate_str` sentinel exactly when
`truncate_length` is truthy (set and non-zero) and the output is longer. -/
def CliTool.invoke (t : CliTool) (truncate_str : String) (args : List String)
    (returncode : Int) (stdout stderr : String) : String :=
  if returncode ≠ 0 then
    "Error: Command " ++ t.command ++ " " ++ pyListRepr args ++
      " failed with return code " ++ toString returncode ++ " and stderr: " ++ stderr
  else
    let output := stdout
    match t.truncate_length with
    | some n =>
      if n ≠ 0 ∧ output.length > n then output.take n ++ truncate_str else output
    | Option.none => output

/-- A raised Python exception, carrying `str(e)`. -/
inductive PyError where
  | typeError (msg : String)
deriving DecidableEq

/-- `get_bash_tool(allowed_commands=None, truncate_length=None)`: the list
comprehension iterates `allowed_commands`, so the `None` default raises
`TypeError` rather than returning a tool list. -/
def get_bash_tool (allowed_commands : Option (List String))
    (truncate_length : Option Nat) : Except PyError (List CliTool) :=
  match allowed_commands with
  | Option.none => Except.error (PyError.typeError "'NoneType' object is not iterable")
  | some commands => Except.ok (commands.map (fun c => create_runtime_cli_tool c truncate_length))

/-! ## `src/agent/agent.py`: URL validation and the review workflow

Shared run-state values are JSON-compatible Python values (`PyVal`); the
values each `LlmAgent` writes to its declared output key are supplied by a
`Collaborators` oracle, and `json.loads` is an abstract decoder parameter
`loads` (`Option.none` models `json.JSONDecodeError`).  The workflow function
returns the single terminal Run Result together with the number of LLM
stage invocations (`LlmAgent.run_async` calls) the run performed. -/

mutual
/-- A JSON-compatible Python value held in the shared run state (a mutual
block — value, item list, key/value field list — so that equality and the
traversals below stay structurally recursive). -/
inductive PyVal where
  | none
  | str (s : String)
  | list (items : PyItems)
  | dict (entries : PyFields)
deriving DecidableEq

inductive PyItems where
  | nil
  | cons (head : PyVal) (tail : PyItems)
deriving DecidableEq

inductive PyFields where
  | nil
  | fcons (key : String) (val : PyVal) (rest : PyFields)
deriving DecidableEq
end

def PyItems.ofList : List PyVal → PyItems
  | [] => .nil
  | v :: vs => .cons v (PyItems.ofList vs)

def PyItems.toList : PyItems → List PyVal
  | .nil => []
  | .cons v vs => v :: vs.toList

def PyItems.isNil : PyItems → Bool
  | .nil => true
  | .cons _ _ => false

/-- Membership test with Python `==` (structural equality here). -/
def PyItems.containsVal : PyItems → PyVal → Bool
  | .nil, _ => false
  | .cons v vs, x => v == x || vs.containsVal x

def PyFields.isNil : PyFields → Bool
  | .nil => true
  | .fcons _ _ _ => false

def PyFields.hasKey : PyFields → String → Bool
  | .nil, _ => false
  | .fcons k _ rest, key => k = key || rest.hasKey key

/-- Dict subscripting (Python dict keys are unique; the first match). -/
def PyFields.get : PyFields → String → Option PyVal
  | .nil, _ => Option.none
  | .fcons k v rest, key => if k = key then some v else rest.get key

def PyFields.keys : PyFields → List String
  | .nil => []
  | .fcons k _ rest => k :: rest.keys

/-- Python truthiness for the modelled values. -/
def PyVal.truthy : PyVal → Bool
  | .none => false
  | .str s => s ≠ ""
  | .list items => !items.isNil
  | .dict entries => !entries.isNil

/-- Boolean substring test on character lists (Python `in` on strings). -/
def listIsSubstr (needle : List Char) : List Char → Bool
  | [] => needle.isEmpty
  | c :: rest => needle.isPrefixOf (c :: rest) || listIsSubstr needle rest

/-- `type(v).__name__`, as embedded in exception messages. -/
def PyVal.typeName : PyVal → String
  | .none => "NoneType"
  | .str _ => "str"
  | .list _ => "list"
  | .dict _ => "dict"

/-- `urllib.parse.urlparse` scheme characters check: letters, digits, `+`,
`-`, `.`, with a leading letter (checked at the call site). -/
def isSchemeChar (c : Char) : Bool :=
  c.isAlpha || c.isDigit || c = '+' || c = '-' || c = '.'

/-- Split a string at its first colon. -/
def splitAtColon : List Char → Option (List Char × List Char)
  | [] => Option.none
  | c :: cs =>
    if c = ':' then some ([], cs)
    else (splitAtColon cs).map (fun p => (c :: p.1, p.2))

/-- The `(netloc, path)` fields of `urllib.parse.urlparse(url)` for URLs
without embedded newlines: an initial `scheme:` (leading letter, scheme
characters) is removed; a netloc follows a leading `//` and runs to the next
`/`, `?` or `#`; the path then runs to the next `?` or `#`. -/
def urlNetlocPath (url : String) : String × String :=
  let cs := url.toList
  let rest :=
    match splitAtColon cs with
    | some (before, after) =>
      (match before with
       | [] => cs
       | c0 :: _ => if c0.isAlpha && before.all isSchemeChar then after else cs)
    | Option.none => cs
  match rest with
  | '/' :: '/' :: r =>
    let netloc := r.takeWhile (fun c => c ≠ '/' && c ≠ '?' && c ≠ '#')
    let r2 := r.dropWhile (fun c => c ≠ '/' && c ≠ '?' && c ≠ '#')
    let path := r2.takeWhile (fun c => c ≠ '?' && c ≠ '#')
    (String.mk netloc, String.mk path)
  | r => ("", String.mk (r.takeWhile (fun c => c ≠ '?' && c ≠ '#')))

/-- Python `str.strip("/")`. -/
def stripSlashes (s : String) : String :=
  String.mk (((s.toList.dropWhile (fun c => c = '/')).reverse.dropWhile (fun c => c = '/')).reverse)

/-- Tail of a Python decimal `int` literal body: digits with single
underscores strictly between digits. -/
def pyDigitsRest : List Char → Bool
  | [] => true
  | '_' :: c :: cs => c.isDigit && pyDigitsRest cs
  | '_' :: [] => false
  | c :: cs => c.isDigit && pyDigitsRest cs

/-- Whether `int(s)` succeeds for a decimal string: optional surrounding
whitespace, optional sign, then a digit followed by digits/underscores. -/
def pyIntValid (s : String) : Bool :=
  let t := pyStrip s
  let u :=
    match t.toList with
    | '+' :: r => r
    | '-' :: r => r
    | r => r
  match u with
  | [] => false
  | c :: cs => c.isDigit && pyDigitsRest cs

/-- `CodeReviewAgent._validate_pr_url`: falsy URLs are invalid; the netloc
must be `github.com`; the path, stripped of surrounding slashes and split on
`/`, must have exactly 4 parts with `pull` third and an `int`-parseable
fourth.  The scheme is never inspected. -/
def validate_pr_url (pr_url : String) : Bool :=
  if pr_url = "" then false
  else
    let np := urlNetlocPath pr_url
    if np.1 ≠ "github.com" then false
    else
      let parts := (splitOnChar '/' (stripSlashes np.2).toList).map String.mk
      if parts.length ≠ 4 then false
      else if parts.getD 2 "" ≠ "pull" then false
      else pyIntValid (parts.getD 3 "")

/-- `_validate_pr_url` applied to the raw state value: a non-string argument
makes `urlparse` raise inside the `try`, returning `False`. -/
def validatePrUrlVal : PyVal → Bool
  | .str s => validate_pr_url s
  | _ => false

/-- The terminal Run Result record. -/
structure RunResult where
  success : Bool
  error : Option String
  clusters : Option PyVal
  reviews : Option PyVal
  summary : Option PyVal
deriving DecidableEq

/-- `CodeReviewAgent._create_error_response`. -/
def create_error_response (error_message : String) : RunResult :=
  { success := false, error := some error_message,
    clusters := Option.none, reviews := Option.none, summary := Option.none }

/-- The success response assembled at the end of `_run_async_impl`. -/
def create_success_response (clusters_data : PyVal) (all_reviews : List PyVal)
    (filtered_review : PyVal) : RunResult :=
  { success := true, error := Option.none, clusters := some clusters_data,
    reviews := some (PyVal.list (PyItems.ofList all_reviews)), summary := some filtered_review }

/-- The values the external LLM collaborators leave in the session state
under each stage's declared output key (`PyVal.none` models an absent key). -/
structure Collaborators where
  base_clusters : PyVal
  review : Nat → PyVal
  reviewed_review : PyVal
  output : PyVal

/-- Python `"clusters" in v`; `Option.none` models the `TypeError` raised by
`in` on `None` (caught by the surrounding `except`). -/
def pyContainsClusters : PyVal → Option Bool
  | .dict entries => some (entries.hasKey "clusters")
  | .list items => some (items.containsVal (PyVal.str "clusters"))
  | .str s => some (listIsSubstr "clusters".toList s.toList)
  | .none => Option.none

/-- The cluster-parsing block of `_run_async_impl` (lines 76–90): decode a
string `base_clusters` with `json.loads`, require `"clusters"` to be a
member, and subscript with `"clusters"`.  Every failure — decode error,
missing key, or the `TypeError` from `in`/subscript on a non-dict — lands on
the same `"No clusters found"` response, so `Option.none` covers them all. -/
def parseClustersStep (loads : String → Option PyVal) (base_clusters : PyVal) :
    Option (PyVal × PyVal) :=
  let decoded :=
    match base_clusters with
    | .str s => loads s
    | v => some v
  match decoded with
  | Option.none => Option.none
  | some clusters_data =>
    match pyContainsClusters clusters_data with
    | Option.none => Option.none
    | some false => Option.none
    | some true =>
      match clusters_data with
      | .dict entries =>
        (match entries.get "clusters" with
         | some clusters => some (clusters_data, clusters)
         | Option.none => Option.none)
      | _ => Option.none

/-- Python iteration (`enumerate(clusters)`): lists yield their items,
strings their characters, dicts their keys; `None` is not iterable
(`Option.none` models the `TypeError`). -/
def pyIterate : PyVal → Option (List PyVal)
  | .list items => some items.toList
  | .str s => some (s.toList.map (fun c => PyVal.str (String.mk [c])))
  | .dict entries => some (entries.keys.map PyVal.str)
  | .none => Option.none

/-- Whether the per-cluster review stage at one index succeeds: the declared
key must be truthy, and a string value must decode with `json.loads`. -/
def reviewSucceeds (loads : String → Option PyVal) (review_result : PyVal) : Bool :=
  review_result.truthy &&
    (match review_result with
     | .str s => (loads s).isSome
     | _ => true)

/-- The decoded review datum appended to `all_reviews` on success. -/
def reviewValue (loads : String → Option PyVal) (review_result : PyVal) : PyVal :=
  match review_result with
  | .str s => (loads s).getD PyVal.none
  | v => v

/-- Outcome of the fan-out loop over clusters. -/
inductive FanOutcome where
  | ok (all_reviews : List PyVal)
  | failed (i : Nat)
  | attrError (typeName : String)

/-- The fan-out review loop (`for i, cluster in enumerate(clusters)`),
returning the number of review-agent invocations performed and the outcome.
A non-dict cluster raises `AttributeError` while the instruction text is
built (`cluster.get(...)`), before that cluster's agent runs; a falsy or
undecodable `review_i` aborts with `"Review failed for cluster {i}"`. -/
def reviewLoop (loads : String → Option PyVal) (review : Nat → PyVal) :
    List PyVal → Nat → List PyVal → Nat × FanOutcome
  | [], _, acc => (0, FanOutcome.ok acc.reverse)
  | cluster :: rest, i, acc =>
    match cluster with
    | .dict _ =>
      let review_result := review i
      if reviewSucceeds loads review_result then
        let r := reviewLoop loads review rest (i + 1) (reviewValue loads review_result :: acc)
        (r.1 + 1, r.2)
      else (1, FanOutcome.failed i)
    | v => (0, FanOutcome.attrError v.typeName)

/-- `CodeReviewAgent._run_async_impl`, as the terminal Run Result it yields
together with the count of LLM stage invocations: entry validation, stage 1
(fetch/cluster), the stage-2 fan-out, stage 3 (filter) and stage 4 (post),
with the top-level `except Exception` converting escaped errors into the
standard failure response. -/
def run_async_impl (loads : String → Option PyVal) (collab : Collaborators)
    (pr_url : PyVal) : RunResult × Nat :=
  if !pr_url.truthy then (create_error_response "No pr_url provided", 0)
  else if !validatePrUrlVal pr_url then (create_error_response "Invalid pr_url format", 0)
  else
    let base_clusters := collab.base_clusters
    if !base_clusters.truthy then (create_error_response "No base_clusters found", 1)
    else
      match parseClustersStep loads base_clusters with
      | Option.none => (create_error_response "No clusters found", 1)
      | some (clusters_data, clusters) =>
        match pyIterate clusters with
        | Option.none =>
          (create_error_response
            ("Unexpected error: '" ++ clusters.typeName ++ "' object is not iterable"), 1)
        | some clusterList =>
          let fan := reviewLoop loads collab.review clusterList 0 []
          match fan.2 with
          | FanOutcome.attrError tn =>
            (create_error_response
              ("Unexpected error: '" ++ tn ++ "' object has no attribute 'get'"), 1 + fan.1)
          | FanOutcome.failed i =>
            (create_error_response ("Review failed for cluster " ++ toString i), 1 + fan.1)
          | FanOutcome.ok all_reviews =>
            if !collab.reviewed_review.truthy then
              (create_error_response "Review filtering failed", 1 + fan.1 + 1)
            else if !collab.output.truthy then
              (create_error_response "Comment posting failed", 1 + fan.1 + 2)
            else
              (create_success_response clusters_data all_reviews collab.reviewed_review,
               1 + fan.1 + 2)

/-! ## Concrete fixtures used by witnesses and counterexamples -/

/-- A decoder on which `json.loads` always fails. -/
def noDecode : String → Option PyVal := fun _ => Option.none

/-- Collaborators that never write their output keys. -/
def silentCollaborators : Collaborators :=
  { base_clusters := PyVal.none, review := fun _ => PyVal.none,
    reviewed_review := PyVal.none, output := PyVal.none }

/-- A well-formed cluster value. -/
def sampleCluster : PyVal := PyVal.dict (.fcons "name" (.str "cluster_a") .nil)

/-- Collaborators for a two-cluster run whose second review stage returns
undecodable garbage. -/
def garbageReviewCollaborators : Collaborators :=
  { base_clusters :=
      PyVal.dict (.fcons "clusters" (.list (.cons sampleCluster (.cons sampleCluster .nil))) .nil)
    review := fun i =>
      if i = 0 then PyVal.dict (.fcons "reviews" (.list .nil) .nil) else PyVal.str "garbage"
    reviewed_review := PyVal.str "## Code Review Summary"
    output := PyVal.str "posted" }

/-- A working root `/work` containing only `node_modules/app.js`. -/
def nodeModulesFS : FSNode :=
  .dir (.cons "work"
    (.dir (.cons "node_modules" (.dir (.cons "app.js" (.file "console.log(1)\n") .nil)) .nil))
    .nil)

/-- A filesystem with an empty working root `/work`. -/
def emptyWorkFS : FSNode := .dir (.cons "work" (.dir .nil) .nil)

/-- The entries of the `/home/work` directory below. -/
def homeWorkEntries : FSEntries := .cons "main.py" (.file "pass\n") .nil

/-- A root `/home/work` containing one file `main.py`. -/
def homeWorkFS : FSNode :=
  .dir (.cons "home" (.dir (.cons "work" (.dir homeWorkEntries) .nil)) .nil)

/-- Follows the specification's wording: whether the pattern contains any
wildcard character at all (`*`, `?`, or the `[seq]` opener).  This is the
spec's widening condition, stated for comparison with the source's
`widenPattern`, which tests only for `*`. -/
def specHasWildcard (s : String) : Bool :=
  s.toList.any (fun c => (c == '*') || (c == '?') || (c == '['))

/-! ## Helper lemmas -/

/-- Widening is idempotent: a widened pattern contains `*`. -/
theorem widenPattern_idem (p : String) : widenPattern (widenPattern p) = widenPattern p := by
  by_cases hc : '*' ∈ p.data
  · have h1 : widenPattern p = p := by
      unfold widenPattern; rw [if_pos (by simpa using hc)]
    rw [h1]
    exact h1
  · have h1 : widenPattern p = "*" ++ p ++ "*" := by
      unfold widenPattern; rw [if_neg (by simpa using hc)]
    rw [h1]
    unfold widenPattern
    rw [if_pos (by simp [String.data_append])]

/-- A widened pattern is never the bare `*`. -/
theorem widenPattern_ne_star (p : String) (hne : p ≠ "*") : widenPattern p ≠ "*" := by
  unfold widenPattern
  by_cases hc : '*' ∈ p.data
  · rw [if_pos (by simpa using hc)]; exact hne
  · rw [if_neg (by simpa using hc)]
    intro hcontra
    have hlen := congrArg String.length hcontra
    rw [String.length_append, String.length_append] at hlen
    have h1 : ("*" : String).length = 1 := rfl
    rw [h1] at hlen
    omega

/-! ## Claim theorems -/

/-- C3 (confirmed): for a produced command tool with truncation budget `b`
and a zero-exit invocation with decoded stdout `s`, the returned text is
`s[:b] + sentinel` when `b` is set, non-zero and `len(s) > b`; it is `s`
unchanged when `len(s) ≤ b`; and it is always `s` unchanged when `b` is
unset or zero. -/
theorem c3_truncation_semantics (command : String) (b : Option Nat) (truncate_str : String)
    (args : List String) (stderr s : String) :
    (∀ n, b = some n → n ≠ 0 → s.length > n →
      (create_runtime_cli_tool command b).invoke truncate_str args 0 s stderr =
        s.take n ++ truncate_str)
    ∧ (∀ n, b = some n → n ≠ 0 → s.length ≤ n →
      (create_runtime_cli_tool command b).invoke truncate_str args 0 s stderr = s)
    ∧ ((b = Option.none ∨ b = some 0) →
      (create_runtime_cli_tool command b).invoke truncate_str args 0 s stderr = s) := by
  refine ⟨?_, ?_, ?_⟩
  · intro n hb hn hl
    subst hb
    simp [create_runtime_cli_tool, CliTool.invoke, hn, hl]
  · intro n hb hn hl
    subst hb
    simp only [create_runtime_cli_tool, CliTool.invoke]
    rw [if_neg (by simp)]
    rw [if_neg (by omega)]
  · rintro (hb | hb) <;> subst hb <;> simp [create_runtime_cli_tool, CliTool.invoke]

/-- Witness for C3 at concrete inputs. -/
theorem c3_truncation_semantics_witness :
    (create_runtime_cli_tool "gh" (some 3)).invoke "<TRUNC>" [] 0 "abcdef" "" = "abc" ++ "<TRUNC>"
    ∧ (create_runtime_cli_tool "gh" (some 3)).invoke "<TRUNC>" [] 0 "ab" "" = "ab"
    ∧ (create_runtime_cli_tool "gh" Option.none).invoke "<TRUNC>" [] 0 "abcdef" "" = "abcdef"
    ∧ (create_runtime_cli_tool "gh" (some 0)).invoke "<TRUNC>" [] 0 "abcdef" "" = "abcdef" :=
  ⟨(c3_truncation_semantics "gh" (some 3) "<TRUNC>" [] "" "abcdef").1 3 rfl (by decide) (by decide),
   (c3_truncation_semantics "gh" (some 3) "<TRUNC>" [] "" "ab").2.1 3 rfl (by decide) (by decide),
   (c3_truncation_semantics "gh" Option.none "<TRUNC>" [] "" "abcdef").2.2 (Or.inl rfl),
   (c3_truncation_semantics "gh" (some 0) "<TRUNC>" [] "" "abcdef").2.2 (Or.inr rfl)⟩

/-- C4 (confirmed): when the child process exits non-zero the tool call does
not raise (the model is a total function) and returns the formatted error
string, which embeds the bound program name, the rendered argument list, the
exit code and the decoded stderr. -/
theorem c4_nonzero_exit_error (command : String) (b : Option Nat) (truncate_str : String)
    (args : List String) (returncode : Int) (stdout stderr : String)
    (h : returncode ≠ 0) :
    (create_runtime_cli_tool command b).invoke truncate_str args returncode stdout stderr =
      "Error: Command " ++ command ++ " " ++ pyListRepr args ++
        " failed with return code " ++ toString returncode ++ " and stderr: " ++ stderr := by
  simp [create_runtime_cli_tool, CliTool.invoke, h]

/-- Witness for C4 at a concrete failed invocation. -/
theorem c4_nonzero_exit_error_witness :
    (create_runtime_cli_tool "gh" (some 10000)).invoke "<TRUNC>" ["pr", "view"] 1 "" "boom" =
      "Error: Command gh ['pr', 'view'] failed with return code 1 and stderr: boom" :=
  c4_nonzero_exit_error "gh" (some 10000) "<TRUNC>" ["pr", "view"] 1 "" "boom" (by decide)

/-- C10 (confirmed): `get_bash_tool` with `allowed_commands` left at its
`None` default raises `TypeError` (the comprehension iterates `None`); an
empty tool list is returned exactly for an explicit empty command list. -/
theorem c10_default_allowed_commands (truncate_length : Option Nat) :
    get_bash_tool Option.none truncate_length =
      Except.error (PyError.typeError "'NoneType' object is not iterable")
    ∧ ∀ commands : List String,
        get_bash_tool (some commands) truncate_length =
          Except.ok (commands.map (fun c => create_runtime_cli_tool c truncate_length))
        ∧ ((commands.map (fun c => create_runtime_cli_tool c truncate_length)) = [] ↔ commands = []) := by
  refine ⟨rfl, fun commands => ⟨rfl, ?_⟩⟩
  simp

/-- C8 (code_bug): `should_skip_path` fnmatches blacklist patterns against
the absolute path string, so directory patterns such as `node_modules/*`
(which do deny the relative path, first conjunct) can never fire; in a
working root containing only `node_modules/app.js`, `find_files` therefore
reports both the directory and the file instead of the "No files found" /
"No directories found" markers. -/
theorem c8_denylist_absolute_path_bug :
    globMatch "node_modules/*" "node_modules/app.js" = true
    ∧ should_skip_path ["work", "node_modules"] = false
    ∧ should_skip_path ["work", "node_modules", "app.js"] = false
    ∧ find_files nodeModulesFS ["work"] ["work"] "node" 1 false =
        "    Files:\n  * node_modules/app.js\n\n    Directories:\n  * node_modules\n\n    " :=
  ⟨rfl, rfl, rfl, rfl⟩

/-- C1 (corrected): for a path resolving outside the working root, each of
the three tools returns the confinement error without consulting the
filesystem (the result is independent of `fs`, and the pure model never
raises or mutates) — except that `find_text_in_files` invoked with the bare
pattern `*` returns its "too broad" error first (still without filesystem
access). -/
theorem c1_confinement (fs fs2 : FSNode) (find_text_char_limit : Nat)
    (working_dir p : AbsPath) (pat : String) (depth : Nat)
    (is_case_sensitive recursive : Bool) (start_line end_line : Option Int)
    (h : insideWorkingDir working_dir p = false) :
    find_files fs working_dir p pat depth is_case_sensitive = confinementError p working_dir
    ∧ read_file fs working_dir p start_line end_line = confinementError p working_dir
    ∧ (pat ≠ "*" →
        find_text_in_files fs find_text_char_limit working_dir pat p recursive is_case_sensitive =
          confinementError p working_dir)
    ∧ find_text_in_files fs find_text_char_limit working_dir "*" p recursive is_case_sensitive =
        "Error: pattern * is too broad. Please provide a more specific pattern"
    ∧ find_files fs working_dir p pat depth is_case_sensitive =
        find_files fs2 working_dir p pat depth is_case_sensitive
    ∧ read_file fs working_dir p start_line end_line =
        read_file fs2 working_dir p start_line end_line
    ∧ find_text_in_files fs find_text_char_limit working_dir pat p recursive is_case_sensitive =
        find_text_in_files fs2 find_text_char_limit working_dir pat p recursive is_case_sensitive := by
  have hff : ∀ g : FSNode,
      find_files g working_dir p pat depth is_case_sensitive = confinementError p working_dir := by
    intro g; simp [find_files, h]
  have hrf : ∀ g : FSNode,
      read_file g working_dir p start_line end_line = confinementError p working_dir := by
    intro g; simp [read_file, h]
  have hft : ∀ g : FSNode,
      find_text_in_files g find_text_char_limit working_dir pat p recursive is_case_sensitive =
        (if pat = "*" then
          "Error: pattern * is too broad. Please provide a more specific pattern"
         else confinementError p working_dir) := by
    intro g
    by_cases hp : pat = "*"
    · simp [find_text_in_files, hp]
    · simp [find_text_in_files, hp, h]
  refine ⟨hff fs, hrf fs, ?_, ?_, (hff fs).trans (hff fs2).symm,
    (hrf fs).trans (hrf fs2).symm, (hft fs).trans (hft fs2).symm⟩
  · intro hp
    simpa [hp] using hft fs
  · simp [find_text_in_files]

/-- Witness for C1 at a concrete outside path. -/
theorem c1_confinement_witness :
    insideWorkingDir ["work"] ["etc"] = false
    ∧ find_files emptyWorkFS ["work"] ["etc"] "x" 1 false = confinementError ["etc"] ["work"]
    ∧ read_file emptyWorkFS ["work"] ["etc"] Option.none Option.none =
        confinementError ["etc"] ["work"]
    ∧ find_text_in_files emptyWorkFS 200 ["work"] "x" ["etc"] true false =
        confinementError ["etc"] ["work"] := by
  have h := c1_confinement emptyWorkFS nodeModulesFS 200 ["work"] ["etc"] "x" 1 false true
    Option.none Option.none rfl
  exact ⟨rfl, h.1, h.2.1, h.2.2.1 (by decide)⟩

/-- Counterexample to C1 as stated: `find_text_in_files` called with the
bare pattern `*` and a path outside the root returns the broad-pattern
error, not a confinement error. -/
theorem c1_counterexample :
    find_text_in_files emptyWorkFS 200 ["work"] "*" ["etc"] true false =
      "Error: pattern * is too broad. Please provide a more specific pattern"
    ∧ find_text_in_files emptyWorkFS 200 ["work"] "*" ["etc"] true false ≠
        confinementError ["etc"] ["work"]
    ∧ insideWorkingDir ["work"] ["etc"] = false :=
  ⟨rfl, by decide, rfl⟩

/-- C2 (corrected): a non-empty entry URL rejected by `_validate_pr_url`
(host not `github.com`, or path shape not `owner/repo/pull/int`) makes the
run yield `success=false` with error `Invalid pr_url format` and no stage
executes.  The URL scheme is not part of the check. -/
theorem c2_invalid_url_no_stage (loads : String → Option PyVal) (collab : Collaborators)
    (url : String) (hne : url ≠ "") (hval : validate_pr_url url = false) :
    run_async_impl loads collab (PyVal.str url) =
      (create_error_response "Invalid pr_url format", 0) := by
  simp [run_async_impl, PyVal.truthy, hne, validatePrUrlVal, hval]

/-- Witness for C2's amended theorem at a concrete rejected URL. -/
theorem c2_invalid_url_no_stage_witness :
    validate_pr_url "https://gitlab.com/a/b/pull/1" = false
    ∧ run_async_impl noDecode silentCollaborators (PyVal.str "https://gitlab.com/a/b/pull/1") =
        (create_error_response "Invalid pr_url format", 0) :=
  ⟨rfl, c2_invalid_url_no_stage noDecode silentCollaborators "https://gitlab.com/a/b/pull/1"
    (by decide) rfl⟩

/-- Counterexample to C2 as stated: the ftp-scheme URL from the spec's
scenario C passes validation (the scheme is never checked), so stage 1 runs
(one stage invocation) and the error is not the invalid-format one. -/
theorem c2_counterexample :
    validate_pr_url "ftp://github.com/acme/widgets/pull/42" = true
    ∧ run_async_impl noDecode silentCollaborators
        (PyVal.str "ftp://github.com/acme/widgets/pull/42") =
        (create_error_response "No base_clusters found", 1) :=
  ⟨rfl, rfl⟩

/-- C7 (corrected): both search tools widen the pattern to a substring match
exactly when it contains no `*` character; a pattern containing another
wildcard (`?` or `[`) but no `*` is still widened.  The tools behave on `p`
exactly as on `widenPattern p`. -/
theorem c7_widening_condition (p : String) :
    (p.toList.contains '*' = false → widenPattern p = "*" ++ p ++ "*")
    ∧ (p.toList.contains '*' = true → widenPattern p = p)
    ∧ (∀ (fs : FSNode) (wd path : AbsPath) (depth : Nat) (csens : Bool),
        find_files fs wd path p depth csens = find_files fs wd path (widenPattern p) depth csens)
    ∧ (∀ (fs : FSNode) (cl : Nat) (wd path : AbsPath) (recursive csens : Bool),
        find_text_in_files fs cl wd p path recursive csens =
          find_text_in_files fs cl wd (widenPattern p) path recursive csens) := by
  refine ⟨fun hc => by unfold widenPattern; rw [if_neg (by simpa using hc)],
    fun hc => by unfold widenPattern; rw [if_pos hc], ?_, ?_⟩
  · intro fs wd path depth csens
    simp [find_files, widenPattern_idem]
  · intro fs cl wd path recursive csens
    by_cases hp : p = "*"
    · subst hp
      rfl
    · have hwne := widenPattern_ne_star p hp
      simp [find_text_in_files, hp, hwne, widenPattern_idem]

/-- Witness for C7's amended theorem at concrete patterns. -/
theorem c7_widening_condition_witness :
    widenPattern "file?" = "*file?*"
    ∧ widenPattern "*.py" = "*.py"
    ∧ find_files emptyWorkFS ["work"] ["work"] "file?" 1 false =
        find_files emptyWorkFS ["work"] ["work"] "*file?*" 1 false :=
  ⟨(c7_widening_condition "file?").1 (by decide),
   (c7_widening_condition "*.py").2.1 (by decide),
   (c7_widening_condition "file?").2.2.1 emptyWorkFS ["work"] ["work"] 1 false⟩

/-- Counterexample to C7 as stated: `file?` contains a wildcard character
yet is not used as given — it is wrapped. -/
theorem c7_counterexample :
    specHasWildcard "file?" = true
    ∧ widenPattern "file?" = "*file?*"
    ∧ widenPattern "file?" ≠ "file?" :=
  ⟨rfl, rfl, by decide⟩

/-- Every terminal result of the workflow is either the standard error
response or the success response. -/
theorem run_async_impl_shape (loads : String → Option PyVal) (collab : Collaborators)
    (pr_url : PyVal) :
    (∃ m, (run_async_impl loads collab pr_url).1 = create_error_response m)
    ∨ ∃ cd revs fr, (run_async_impl loads collab pr_url).1 = create_success_response cd revs fr := by
  dsimp only [run_async_impl]
  repeat' split
  all_goals
    first
    | exact Or.inl ⟨_, rfl⟩
    | exact Or.inr ⟨_, _, _, rfl⟩

/-- C5 (confirmed): a failure Run Result carries `success=false`, a non-null
error string and null `clusters`/`reviews`/`summary`; a success Run Result
carries all three payload fields populated and a null error. -/
theorem c5_run_result_invariant (loads : String → Option PyVal) (collab : Collaborators)
    (pr_url : PyVal) :
    ((run_async_impl loads collab pr_url).1.success = false →
      (run_async_impl loads collab pr_url).1.clusters = Option.none
      ∧ (run_async_impl loads collab pr_url).1.reviews = Option.none
      ∧ (run_async_impl loads collab pr_url).1.summary = Option.none
      ∧ (run_async_impl loads collab pr_url).1.error ≠ Option.none)
    ∧ ((run_async_impl loads collab pr_url).1.success = true →
      (run_async_impl loads collab pr_url).1.clusters ≠ Option.none
      ∧ (run_async_impl loads collab pr_url).1.reviews ≠ Option.none
      ∧ (run_async_impl loads collab pr_url).1.summary ≠ Option.none
      ∧ (run_async_impl loads collab pr_url).1.error = Option.none) := by
  rcases run_async_impl_shape loads collab pr_url with ⟨m, hm⟩ | ⟨cd, revs, fr, hm⟩ <;>
    rw [hm] <;> simp [create_error_response, create_success_response]

/-- Witness for C5: a failed run has all payload fields null. -/
theorem c5_run_result_invariant_witness :
    (run_async_impl noDecode silentCollaborators PyVal.none).1.clusters = Option.none
    ∧ (run_async_impl noDecode silentCollaborators PyVal.none).1.reviews = Option.none
    ∧ (run_async_impl noDecode silentCollaborators PyVal.none).1.summary = Option.none
    ∧ (run_async_impl noDecode silentCollaborators PyVal.none).1.error ≠ Option.none :=
  (c5_run_result_invariant noDecode silentCollaborators PyVal.none).1 rfl

/-- The fan-out loop aborts at the first failing review index. -/
theorem reviewLoop_fail_at (loads : String → Option PyVal) (review : Nat → PyVal) :
    ∀ (cs : List PyVal) (i start : Nat) (acc : List PyVal),
      i < cs.length →
      (∀ j, j ≤ i → ∃ d, cs.get? j = some (PyVal.dict d)) →
      (∀ j, j < i → reviewSucceeds loads (review (start + j)) = true) →
      reviewSucceeds loads (review (start + i)) = false →
      reviewLoop loads review cs start acc = (i + 1, FanOutcome.failed (start + i)) := by
  intro cs
  induction cs with
  | nil => intro i start acc hi; simp at hi
  | cons c rest ih =>
    intro i start acc hi hdict hsucc hfail
    obtain ⟨d, hd⟩ := hdict 0 (Nat.zero_le i)
    have hc : c = PyVal.dict d := by simpa using hd
    subst hc
    cases i with
    | zero =>
      have hf : reviewSucceeds loads (review start) = false := by simpa using hfail
      simp [reviewLoop, hf]
    | succ i2 =>
      have hs0 : reviewSucceeds loads (review start) = true := by
        have h := hsucc 0 (Nat.succ_pos i2)
        simpa using h
      have hrec := ih i2 (start + 1) (reviewValue loads (review start) :: acc)
        (by simpa using hi)
        (fun j hj => by simpa using hdict (j + 1) (by omega))
        (fun j hj => by
          have h := hsucc (j + 1) (by omega)
          have harg : start + (j + 1) = start + 1 + j := by omega
          rwa [harg] at h)
        (by
          have harg : start + (i2 + 1) = start + 1 + i2 := by omega
          rwa [harg] at hfail)
      have harg2 : start + 1 + i2 = start + (i2 + 1) := by omega
      rw [harg2] at hrec
      simp [reviewLoop, hs0, hrec]

/-- C6 (confirmed): once the run reaches the fan-out stage, a failure of the
review stage at cluster index `i` (declared key absent/falsy, or a string
value `json.loads` cannot decode) terminates the run at once with the
failure response naming that index — later clusters are not reviewed (the
stage count is 1 fetch stage plus `i+1` review stages) and the failure
response carries a null review list. -/
theorem c6_fanout_failure_aborts (loads : String → Option PyVal) (collab : Collaborators)
    (pr_url cd clusters : PyVal) (cs : List PyVal) (i : Nat)
    (hurl : pr_url.truthy = true)
    (hval : validatePrUrlVal pr_url = true)
    (hbc : collab.base_clusters.truthy = true)
    (hparse : parseClustersStep loads collab.base_clusters = some (cd, clusters))
    (hiter : pyIterate clusters = some cs)
    (hi : i < cs.length)
    (hdict : ∀ j, j ≤ i → ∃ d, cs.get? j = some (PyVal.dict d))
    (hsucc : ∀ j, j < i → reviewSucceeds loads (collab.review j) = true)
    (hfail : reviewSucceeds loads (collab.review i) = false) :
    run_async_impl loads collab pr_url =
      (create_error_response ("Review failed for cluster " ++ toString i), i + 2) := by
  have hloop := reviewLoop_fail_at loads collab.review cs i 0 [] hi hdict
    (fun j hj => by simpa using hsucc j hj) (by simpa using hfail)
  simp only [run_async_impl, hurl, hval, hbc, hparse, hiter, hloop, Bool.not_true,
    Bool.false_eq_true, if_false]
  simp [hloop]
  omega

/-- Witness for C6: scenario B — two clusters, the second review stage
returns undecodable garbage; the run fails naming cluster 1 after one fetch
and two review invocations. -/
theorem c6_fanout_failure_aborts_witness :
    run_async_impl noDecode garbageReviewCollaborators
        (PyVal.str "https://github.com/acme/widgets/pull/42") =
      (create_error_response "Review failed for cluster 1", 3) := by
  have h := c6_fanout_failure_aborts noDecode garbageReviewCollaborators
    (PyVal.str "https://github.com/acme/widgets/pull/42")
    garbageReviewCollaborators.base_clusters
    (PyVal.list (.cons sampleCluster (.cons sampleCluster .nil)))
    [sampleCluster, sampleCluster] 1
    rfl rfl rfl rfl rfl (by decide)
    (fun j hj => by
      interval_cases j
      · exact ⟨_, rfl⟩
      · exact ⟨_, rfl⟩)
    (fun j hj => by
      interval_cases j
      exact rfl)
    rfl
  exact h

/-! ## Glob matcher lemmas: a wildcard-free pattern widened on both ends
matches any string containing it -/

theorem globMatchAux_nil (f : Nat) (s : List Char) :
    globMatchAux (f + 1) [] s = s.isEmpty := rfl

theorem globMatchAux_star (f : Nat) (ps s : List Char) :
    globMatchAux (f + 1) ('*' :: ps) s =
      (globMatchAux f ps s ||
        match s with
        | [] => false
        | _ :: s2 => globMatchAux f ('*' :: ps) s2) := rfl

theorem globMatchAux_qmark (f : Nat) (ps s : List Char) :
    globMatchAux (f + 1) ('?' :: ps) s =
      (match s with
       | [] => false
       | _ :: s2 => globMatchAux f ps s2) := rfl

theorem globMatchAux_class (f : Nat) (ps s : List Char) :
    globMatchAux (f + 1) ('[' :: ps) s =
      (match splitClass ps with
       | Option.none =>
         (match s with
          | [] => false
          | d :: s2 => (d = '[') && globMatchAux f ps s2)
       | some (neg, cls, rest) =>
         (match s with
          | [] => false
          | d :: s2 => (classMatch d cls != neg) && globMatchAux f rest s2)) := rfl

theorem globMatchAux_lit (f : Nat) (c : Char) (ps s : List Char)
    (h1 : c ≠ '*') (h2 : c ≠ '?') (h3 : c ≠ '[') :
    globMatchAux (f + 1) (c :: ps) s =
      (match s with
       | [] => false
       | d :: s2 => (c = d) && globMatchAux f ps s2) := by
  show (if c = '*' then _ else if c = '?' then _ else if c = '[' then _ else _) = _
  rw [if_neg h1, if_neg h2, if_neg h3]

/-- More fuel never turns a match into a non-match. -/
theorem globMatchAux_mono : ∀ (f1 : Nat) (p s : List Char) (f2 : Nat), f1 ≤ f2 →
    globMatchAux f1 p s = true → globMatchAux f2 p s = true := by
  intro f1
  induction f1 with
  | zero => intro p s f2 h hm; exact absurd hm (by simp [globMatchAux])
  | succ f ih =>
    intro p s f2 h hm
    obtain ⟨g, rfl⟩ : ∃ g, f2 = g + 1 := ⟨f2 - 1, by omega⟩
    have hfg : f ≤ g := by omega
    cases p with
    | nil => simpa [globMatchAux_nil] using hm
    | cons c ps =>
      by_cases hc1 : c = '*'
      · subst hc1
        rw [globMatchAux_star, Bool.or_eq_true] at hm
        rw [globMatchAux_star, Bool.or_eq_true]
        rcases hm with hA | hB
        · exact Or.inl (ih ps s g hfg hA)
        · cases s with
          | nil => simp at hB
          | cons d s2 =>
            have hB2 : globMatchAux f ('*' :: ps) s2 = true := hB
            exact Or.inr (ih ('*' :: ps) s2 g hfg hB2)
      · by_cases hc2 : c = '?'
        · subst hc2
          rw [globMatchAux_qmark] at hm ⊢
          cases s with
          | nil => simp at hm
          | cons d s2 => exact ih ps s2 g hfg hm
        · by_cases hc3 : c = '['
          · subst hc3
            rw [globMatchAux_class] at hm ⊢
            cases hsp : splitClass ps with
            | none =>
              rw [hsp] at hm
              cases s with
              | nil => simp at hm
              | cons d s2 =>
                rw [Bool.and_eq_true] at hm ⊢
                exact ⟨hm.1, ih ps s2 g hfg hm.2⟩
            | some ncr =>
              obtain ⟨neg, cls, rest⟩ := ncr
              rw [hsp] at hm
              cases s with
              | nil => simp at hm
              | cons d s2 =>
                rw [Bool.and_eq_true] at hm ⊢
                exact ⟨hm.1, ih rest s2 g hfg hm.2⟩
          · rw [globMatchAux_lit f c ps s hc1 hc2 hc3] at hm
            rw [globMatchAux_lit g c ps s hc1 hc2 hc3]
            cases s with
            | nil => simp at hm
            | cons d s2 =>
              rw [Bool.and_eq_true] at hm ⊢
              exact ⟨hm.1, ih ps s2 g hfg hm.2⟩

/-- The pattern `*` alone matches every string, with a little fuel slack. -/
theorem globMatchAux_star_any (s : List Char) :
    ∀ f, s.length + 2 ≤ f → globMatchAux f ['*'] s = true := by
  induction s with
  | nil =>
    intro f hf
    obtain ⟨g, rfl⟩ : ∃ g, f = g + 1 := ⟨f - 1, by omega⟩
    rw [globMatchAux_star]
    obtain ⟨g2, rfl⟩ : ∃ g2, g = g2 + 1 := ⟨g - 1, by simp at hf; omega⟩
    rw [globMatchAux_nil]
    simp
  | cons d s2 ih =>
    intro f hf
    obtain ⟨g, rfl⟩ : ∃ g, f = g + 1 := ⟨f - 1, by omega⟩
    rw [globMatchAux_star]
    have hr := ih g (by simp at hf ⊢; omega)
    simp [hr]

/-- A wildcard-free pattern followed by `*` matches itself followed by
anything. -/
theorem globMatchAux_litstar (pat : List Char)
    (hw : ∀ c ∈ pat, c ≠ '*' ∧ c ≠ '?' ∧ c ≠ '[') :
    ∀ (s : List Char) (f : Nat), pat.length + s.length + 2 ≤ f →
      globMatchAux f (pat ++ ['*']) (pat ++ s) = true := by
  induction pat with
  | nil =>
    intro s f hf
    simpa using globMatchAux_star_any s f (by simpa using hf)
  | cons c pat2 ih =>
    intro s f hf
    obtain ⟨hc1, hc2, hc3⟩ := hw c (List.mem_cons_self c pat2)
    obtain ⟨g, rfl⟩ : ∃ g, f = g + 1 := ⟨f - 1, by omega⟩
    rw [List.cons_append, List.cons_append, globMatchAux_lit g c _ _ hc1 hc2 hc3]
    have hrec := ih (fun c2 hc => hw c2 (List.mem_cons_of_mem _ hc)) s g
      (by simp at hf ⊢; omega)
    simp [hrec]

/-- A star-headed pattern that matches `r` also matches `l ++ r`. -/
theorem globMatchAux_star_entry (ps r : List Char) (f0 : Nat)
    (hr : globMatchAux f0 ('*' :: ps) r = true) :
    ∀ (l : List Char) (f : Nat), f0 + l.length ≤ f →
      globMatchAux f ('*' :: ps) (l ++ r) = true := by
  intro l
  induction l with
  | nil => intro f hf; exact globMatchAux_mono f0 _ _ f (by simpa using hf) hr
  | cons d l2 ih =>
    intro f hf
    obtain ⟨g, rfl⟩ : ∃ g, f = g + 1 := ⟨f - 1, by simp at hf; omega⟩
    rw [globMatchAux_star]
    have hrec := ih g (by simp at hf; omega)
    simp [hrec]

/-- A wildcard-free pattern, once widened, fnmatches every string that
contains it as a substring. -/
theorem globMatch_substring (pat s : String)
    (hw : specHasWildcard pat = false)
    (hsub : pat.data <:+: s.data) :
    globMatch (widenPattern pat) s = true := by
  have hchars : ∀ c ∈ pat.data, c ≠ '*' ∧ c ≠ '?' ∧ c ≠ '[' := by
    intro c hc
    have hx : ¬((c == '*') || (c == '?') || (c == '[')) = true := by
      intro hcon
      have : specHasWildcard pat = true := by
        unfold specHasWildcard
        exact List.any_eq_true.mpr ⟨c, by simpa using hc, hcon⟩
      rw [this] at hw
      exact Bool.true_eq_false.mp hw
    simp only [Bool.or_eq_true, beq_iff_eq, not_or] at hx
    exact ⟨hx.1.1, hx.1.2, hx.2⟩
  have hnostar : '*' ∉ pat.data := fun h => (hchars '*' h).1 rfl
  have hwide : widenPattern pat = "*" ++ pat ++ "*" := by
    unfold widenPattern
    rw [if_neg (by simpa using hnostar)]
  obtain ⟨l, r, hlr⟩ := hsub
  have hsdata : s.data = l ++ (pat.data ++ r) := by
    rw [← hlr]; simp [List.append_assoc]
  have hinner : globMatchAux (pat.data.length + r.length + 3)
      ('*' :: (pat.data ++ ['*'])) (pat.data ++ r) = true := by
    rw [show pat.data.length + r.length + 3 = (pat.data.length + r.length + 2) + 1 from rfl]
    rw [globMatchAux_star, Bool.or_eq_true]
    exact Or.inl (globMatchAux_litstar pat.data hchars r (pat.data.length + r.length + 2)
      (by omega))
  have hfull := globMatchAux_star_entry (pat.data ++ ['*']) (pat.data ++ r)
    (pat.data.length + r.length + 3) hinner l
    ((widenPattern pat).length + s.length + 1)
    (by
      rw [hwide]
      have h1 : ("*" : String).length = 1 := rfl
      rw [String.length_append, String.length_append, h1]
      have h2 : s.length = s.data.length := rfl
      have h3 : pat.length = pat.data.length := rfl
      rw [h2, h3, hsdata]
      rw [List.length_append, List.length_append]
      omega)
  unfold globMatch
  have htl1 : (widenPattern pat).toList = '*' :: (pat.data ++ ['*']) := by
    rw [hwide]
    show ("*" ++ pat ++ "*").data = _
    rw [String.data_append, String.data_append]
    rfl
  have htl2 : s.toList = l ++ (pat.data ++ r) := hsdata
  rw [htl1, htl2]
  exact hfull

/-! ## Path and walk lemmas for the absolute-path matching claim -/

theorem joinSlash_cons_ne (x : String) (xs : List String) (h : xs ≠ []) :
    joinSlash (x :: xs) = x ++ "/" ++ joinSlash xs := by
  cases xs with
  | nil => exact absurd rfl h
  | cons y ys => rfl

theorem joinSlash_append_data (xs ys : List String) (hys : ys ≠ []) :
    ∃ t, (joinSlash (xs ++ ys)).data = (joinSlash xs).data ++ t := by
  induction xs with
  | nil => exact ⟨(joinSlash ys).data, by simp [joinSlash]⟩
  | cons x xs2 ih =>
    cases xs2 with
    | nil =>
      refine ⟨'/' :: (joinSlash ys).data, ?_⟩
      rw [List.singleton_append, joinSlash_cons_ne x ys hys]
      simp [joinSlash, String.data_append]
    | cons x2 xs3 =>
      obtain ⟨t, ht⟩ := ih
      refine ⟨t, ?_⟩
      rw [List.cons_append, joinSlash_cons_ne x ((x2 :: xs3) ++ ys) (by simp),
        joinSlash_cons_ne x (x2 :: xs3) (by simp)]
      simpa [String.data_append, List.append_assoc] using ht

/-- `str` of an extended absolute path extends `str` of the path. -/
theorem pathStr_prefix_data (dir rp : AbsPath) :
    ∃ t, (pathStr (dir ++ rp)).data = (pathStr dir).data ++ t := by
  cases rp with
  | nil => exact ⟨[], by simp⟩
  | cons r rs =>
    cases dir with
    | nil =>
      refine ⟨(joinSlash (r :: rs)).data, ?_⟩
      simp [pathStr, joinSlash, String.data_append]
    | cons d ds =>
      obtain ⟨t, ht⟩ := joinSlash_append_data (d :: ds) (r :: rs) (by simp)
      rw [List.cons_append] at ht
      refine ⟨t, ?_⟩
      simp only [pathStr, String.data_append, List.cons_append]
      simp [ht]

/-- A found entry is among the listed entries. -/
theorem FSEntries.find_mem : ∀ (es : FSEntries) (n : String) (node : FSNode),
    es.find n = some node → (n, node) ∈ es.toList
  | .nil, n, node, h => by simp [FSEntries.find] at h
  | .cons name node2 rest, n, node, h => by
    rw [FSEntries.find] at h
    by_cases hn : name = n
    · subst hn
      rw [if_pos rfl] at h
      obtain rfl : node2 = node := by simpa using h
      exact List.mem_cons_self _ _
    · rw [if_neg hn] at h
      exact List.mem_cons_of_mem _ (FSEntries.find_mem rest n node h)

/-- Splitting a successful lookup at the first component. -/
theorem FSNode.lookup_cons (es : FSEntries) (c : String) (cs : List String) (node : FSNode)
    (h : (FSNode.dir es).lookup (c :: cs) = some node) :
    ∃ child, es.find c = some child ∧ child.lookup cs = some node := by
  rw [FSNode.lookup] at h
  cases hf : es.find c with
  | none => rw [hf] at h; exact absurd h (by simp)
  | some child => rw [hf] at h; exact ⟨child, rfl, h⟩

/-- A node that answers a non-empty lookup is a directory. -/
theorem FSNode.lookup_ne_nil_dir (child : FSNode) (cs : List String) (node : FSNode)
    (hne : cs ≠ []) (h : child.lookup cs = some node) :
    ∃ es2, child = FSNode.dir es2 := by
  cases child with
  | dir es2 => exact ⟨es2, rfl⟩
  | file content =>
    cases cs with
    | nil => exact absurd rfl hne
    | cons c cs2 => rw [FSNode.lookup] at h; exact absurd h (by simp)

/-- An eligible, matching entry of the processed chain is reported in the
file or directory match list of `processEntries`. -/
theorem processEntries_mem (base : AbsPath) (pat : String) (rel : List String)
    (name : String) (node : FSNode) :
    ∀ l : List (String × FSNode), (name, node) ∈ l →
      should_skip_path (base ++ rel ++ [name]) = false →
      hasDotPart (rel ++ [name]) = false →
      globMatch pat (pathStr (base ++ rel ++ [name])) = true →
      (node.isFile = true → relStr (rel ++ [name]) ∈ (processEntries base pat rel l).1)
      ∧ (node.isFile = false → relStr (rel ++ [name]) ∈ (processEntries base pat rel l).2) := by
  intro l
  induction l with
  | nil => intro hmem; simp at hmem
  | cons e t ih =>
    intro hmem hskip hdot hmatch
    rcases List.mem_cons.mp hmem with heq | htail
    · obtain rfl : e = (name, node) := heq.symm
      constructor
      · intro hfile
        simp only [processEntries, hskip, hdot, hmatch, hfile]
        simp
      · intro hfile
        simp only [processEntries, hskip, hdot, hmatch, hfile]
        simp
    · have hx := ih htail hskip hdot hmatch
      obtain ⟨en, enode⟩ := e
      constructor
      · intro hfile
        have hx1 := hx.1 hfile
        simp only [processEntries]
        split
        · exact hx1
        · split
          · exact hx1
          · split
            · split
              · exact List.mem_cons_of_mem _ hx1
              · exact hx1
            · exact hx1
      · intro hfile
        have hx2 := hx.2 hfile
        simp only [processEntries]
        split
        · exact hx2
        · split
          · exact hx2
          · split
            · split
              · exact hx2
              · exact List.mem_cons_of_mem _ hx2
            · exact hx2

/-- An eligible, matching direct entry is reported by the per-root
processing of `walkHere`. -/
theorem walkHere_mem (base : AbsPath) (pat : String) (rel : List String)
    (es : FSEntries) (n : String) (node : FSNode)
    (hfind : es.find n = some node)
    (hskip : should_skip_path (base ++ rel ++ [n]) = false)
    (hdot : hasDotPart (rel ++ [n]) = false)
    (hmatch : globMatch pat (pathStr (base ++ rel ++ [n])) = true) :
    (node.isFile = true → relStr (rel ++ [n]) ∈ (walkHere base pat rel es.toList).1)
    ∧ (node.isFile = false → relStr (rel ++ [n]) ∈ (walkHere base pat rel es.toList).2) := by
  have hmem := FSEntries.find_mem es n node hfind
  have hwh : walkHere base pat rel es.toList =
      processEntries base pat rel
        (((es.toList.filter (fun e => !e.2.isFile)).filter
            (fun e => !should_skip_path (base ++ rel ++ [e.1]))) ++
          es.toList.filter (fun e => e.2.isFile)) := rfl
  rw [hwh]
  constructor
  · intro hfile
    have hmf : (n, node) ∈ es.toList.filter (fun e => e.2.isFile) :=
      List.mem_filter.mpr ⟨hmem, by simpa using hfile⟩
    have hchain : (n, node) ∈
        ((es.toList.filter (fun e => !e.2.isFile)).filter
            (fun e => !should_skip_path (base ++ rel ++ [e.1]))) ++
          es.toList.filter (fun e => e.2.isFile) :=
      List.mem_append.mpr (Or.inr hmf)
    exact (processEntries_mem base pat rel n node _ hchain hskip hdot hmatch).1 hfile
  · intro hfile
    have hmd : (n, node) ∈ es.toList.filter (fun e => !e.2.isFile) :=
      List.mem_filter.mpr ⟨hmem, by simp [hfile]⟩
    have hmp : (n, node) ∈ (es.toList.filter (fun e => !e.2.isFile)).filter
        (fun e => !should_skip_path (base ++ rel ++ [e.1])) :=
      List.mem_filter.mpr ⟨hmd, by simpa [List.append_assoc] using hskip⟩
    have hchain : (n, node) ∈
        ((es.toList.filter (fun e => !e.2.isFile)).filter
            (fun e => !should_skip_path (base ++ rel ++ [e.1]))) ++
          es.toList.filter (fun e => e.2.isFile) :=
      List.mem_append.mpr (Or.inl hmp)
    exact (processEntries_mem base pat rel n node _ hchain hskip hdot hmatch).2 hfile

/-- Matches contributed by a non-pruned subdirectory survive into the
subtree descent of `walkKids`. -/
theorem walkKids_mem : ∀ (es : FSEntries) (base : AbsPath) (pat : String) (depth : Nat)
    (rel : List String) (n : String) (es2 : FSEntries) (x : String),
    es.find n = some (FSNode.dir es2) →
    should_skip_path (base ++ rel ++ [n]) = false →
    ((x ∈ (walkDirEntries base pat depth (rel ++ [n]) es2).1 →
        x ∈ (walkKids base pat depth rel es).1)
     ∧ (x ∈ (walkDirEntries base pat depth (rel ++ [n]) es2).2 →
        x ∈ (walkKids base pat depth rel es).2))
  | .nil, base, pat, depth, rel, n, es2, x, hfind, hskip => by
    simp [FSEntries.find] at hfind
  | .cons name node rest, base, pat, depth, rel, n, es2, x, hfind, hskip => by
    rw [FSEntries.find] at hfind
    by_cases hn : name = n
    · subst hn
      rw [if_pos rfl] at hfind
      obtain rfl : node = FSNode.dir es2 := by simpa using hfind
      have hwk : walkKids base pat depth rel (.cons name (FSNode.dir es2) rest) =
          ((if should_skip_path (base ++ rel ++ [name]) then ([], [])
            else walkDirEntries base pat depth (rel ++ [name]) es2).1 ++
              (walkKids base pat depth rel rest).1,
           (if should_skip_path (base ++ rel ++ [name]) then ([], [])
            else walkDirEntries base pat depth (rel ++ [name]) es2).2 ++
              (walkKids base pat depth rel rest).2) := rfl
      rw [hwk]
      rw [if_neg (by rw [hskip]; exact Bool.false_ne_true)]
      exact ⟨fun hx => List.mem_append.mpr (Or.inl hx),
        fun hx => List.mem_append.mpr (Or.inl hx)⟩
    · rw [if_neg hn] at hfind
      have hrec := walkKids_mem rest base pat depth rel n es2 x hfind hskip
      cases node with
      | file content =>
        have hwk : walkKids base pat depth rel (.cons name (FSNode.file content) rest) =
            (([] : List String) ++ (walkKids base pat depth rel rest).1,
             ([] : List String) ++ (walkKids base pat depth rel rest).2) := rfl
        rw [hwk]
        exact ⟨fun hx => List.mem_append.mpr (Or.inr (hrec.1 hx)),
          fun hx => List.mem_append.mpr (Or.inr (hrec.2 hx))⟩
      | dir es3 =>
        have hwk : walkKids base pat depth rel (.cons name (FSNode.dir es3) rest) =
            ((if should_skip_path (base ++ rel ++ [name]) then ([], [])
              else walkDirEntries base pat depth (rel ++ [name]) es3).1 ++
                (walkKids base pat depth rel rest).1,
             (if should_skip_path (base ++ rel ++ [name]) then ([], [])
              else walkDirEntries base pat depth (rel ++ [name]) es3).2 ++
                (walkKids base pat depth rel rest).2) := rfl
        rw [hwk]
        exact ⟨fun hx => List.mem_append.mpr (Or.inr (hrec.1 hx)),
          fun hx => List.mem_append.mpr (Or.inr (hrec.2 hx))⟩

/-- Main membership lemma for the `os.walk` loop: an entry whose ancestor
directories are all non-pruned, which is itself non-blacklisted, dot-free
and within the depth limit, and whose absolute path fnmatches the pattern,
is reported in the corresponding match list. -/
theorem walkDirEntries_mem (base : AbsPath) (pat : String) (depth : Nat) :
    ∀ (relParts : List String) (rel : List String) (es : FSEntries) (node : FSNode),
      relParts ≠ [] →
      (FSNode.dir es).lookup relParts = some node →
      (∀ q : List String, q ≠ [] → q.length < relParts.length → q <+: relParts →
        should_skip_path (base ++ rel ++ q) = false) →
      should_skip_path (base ++ rel ++ relParts) = false →
      hasDotPart (rel ++ relParts) = false →
      (rel ++ relParts).length ≤ depth + 1 →
      globMatch pat (pathStr (base ++ rel ++ relParts)) = true →
      (node.isFile = true → relStr (rel ++ relParts) ∈ (walkDirEntries base pat depth rel es).1)
      ∧ (node.isFile = false →
          relStr (rel ++ relParts) ∈ (walkDirEntries base pat depth rel es).2) := by
  intro relParts
  induction relParts with
  | nil => intro rel es node hne; exact absurd rfl hne
  | cons c cs ih =>
    intro rel es node hne hlook hanc hskip hdot hdepth hmatch
    obtain ⟨child, hfind, hlook2⟩ := FSNode.lookup_cons es c cs node hlook
    have hwde : walkDirEntries base pat depth rel es =
        ((if rel.length > depth then ([], []) else walkHere base pat rel es.toList).1 ++
            (walkKids base pat depth rel es).1,
         (if rel.length > depth then ([], []) else walkHere base pat rel es.toList).2 ++
            (walkKids base pat depth rel es).2) := rfl
    cases cs with
    | nil =>
      have hchild : child = node := by simpa [FSNode.lookup] using hlook2
      subst hchild
      have hrel : ¬ rel.length > depth := by
        rw [List.length_append] at hdepth
        simp at hdepth
        omega
      have hwh := walkHere_mem base pat rel es c child hfind hskip hdot hmatch
      rw [hwde, if_neg hrel]
      exact ⟨fun hfile => List.mem_append.mpr (Or.inl (hwh.1 hfile)),
        fun hfile => List.mem_append.mpr (Or.inl (hwh.2 hfile))⟩
    | cons c2 cs2 =>
      obtain ⟨es2, rfl⟩ := FSNode.lookup_ne_nil_dir child (c2 :: cs2) node (by simp) hlook2
      have hskipc : should_skip_path (base ++ rel ++ [c]) = false :=
        hanc [c] (by simp) (by simp) ⟨c2 :: cs2, rfl⟩
      have hassoc1 : ∀ q : List String, base ++ (rel ++ [c]) ++ q = base ++ rel ++ (c :: q) := by
        intro q; simp
      have hassoc2 : ∀ q : List String, (rel ++ [c]) ++ q = rel ++ (c :: q) := by
        intro q; simp
      have ihres := ih (rel ++ [c]) es2 node (by simp) hlook2
        (fun q hq1 hq2 hq3 => by
          rw [hassoc1 q]
          exact hanc (c :: q) (by simp) (by simp only [List.length_cons] at hq2 ⊢; omega)
            (List.cons_prefix_cons.mpr ⟨rfl, hq3⟩))
        (by rw [hassoc1 (c2 :: cs2)]; exact hskip)
        (by rw [hassoc2 (c2 :: cs2)]; exact hdot)
        (by rw [hassoc2 (c2 :: cs2)]; exact hdepth)
        (by rw [hassoc1 (c2 :: cs2)]; exact hmatch)
      rw [hassoc2 (c2 :: cs2)] at ihres
      have hwk := walkKids_mem es base pat depth rel c es2
        (relStr (rel ++ (c :: c2 :: cs2))) hfind hskipc
      rw [hwde]
      exact ⟨fun hfile => List.mem_append.mpr (Or.inr (hwk.1 (ihres.1 hfile))),
        fun hfile => List.mem_append.mpr (Or.inr (hwk.2 (ihres.2 hfile)))⟩

/-- C9 (confirmed): `find_files` fnmatches the widened pattern against the
full absolute resolved path string of each candidate entry (never the
path relative to the searched directory); consequently, whenever a
wildcard-free pattern occurs as a substring of the searched directory's own
absolute path, every entry that survives the deny-list, dot and depth
filters is reported as a match. -/
theorem c9_absolute_path_matching (fs : FSNode) (working_dir dir : AbsPath)
    (pat : String) (depth : Nat) (is_case_sensitive : Bool)
    (es : FSEntries) (relParts : List String) (node : FSNode)
    (hwild : specHasWildcard pat = false)
    (hsub : pat.data <:+: (pathStr dir).data)
    (hin : insideWorkingDir working_dir dir = true)
    (hdir : fs.lookup dir = some (FSNode.dir es))
    (hnode : (FSNode.dir es).lookup relParts = some node)
    (hne : relParts ≠ [])
    (hanc : ∀ q : List String, q ≠ [] → q.length < relParts.length → q <+: relParts →
      should_skip_path (dir ++ q) = false)
    (hskip : should_skip_path (dir ++ relParts) = false)
    (hdot : hasDotPart relParts = false)
    (hdepth : relParts.length ≤ depth + 1) :
    find_files fs working_dir dir pat depth is_case_sensitive =
      formatFindFiles (find_files_matches es dir (widenPattern pat) depth).1
        (find_files_matches es dir (widenPattern pat) depth).2
    ∧ (node.isFile = true →
        relStr relParts ∈ (find_files_matches es dir (widenPattern pat) depth).1)
    ∧ (node.isFile = false →
        relStr relParts ∈ (find_files_matches es dir (widenPattern pat) depth).2) := by
  have heq : find_files fs working_dir dir pat depth is_case_sensitive =
      formatFindFiles (find_files_matches es dir (widenPattern pat) depth).1
        (find_files_matches es dir (widenPattern pat) depth).2 := by
    unfold find_files
    rw [hin, hdir]
    rfl
  have hmatch : globMatch (widenPattern pat) (pathStr (dir ++ relParts)) = true := by
    obtain ⟨t, ht⟩ := pathStr_prefix_data dir relParts
    exact globMatch_substring pat (pathStr (dir ++ relParts)) hwild
      (hsub.trans (List.IsPrefix.isInfix ⟨t, ht.symm⟩))
  have hmem := walkDirEntries_mem dir (widenPattern pat) depth relParts [] es node hne hnode
    (fun q h1 h2 h3 => by simpa using hanc q h1 h2 h3)
    (by simpa using hskip)
    (by simpa using hdot)
    (by simpa using hdepth)
    (by simpa using hmatch)
  have hrel : relStr ([] ++ relParts) = relStr relParts := by simp
  have hwd : walkDirEntries dir (widenPattern pat) depth [] es =
      find_files_matches es dir (widenPattern pat) depth := rfl
  rw [hrel, hwd] at hmem
  exact ⟨heq, hmem.1, hmem.2⟩

/-- Witness for C9: searching `/home/work` (whose absolute path contains the
wildcard-free pattern `work`) reports the unrelated entry `main.py`. -/
theorem c9_absolute_path_matching_witness :
    find_files homeWorkFS ["home", "work"] ["home", "work"] "work" 1 false =
      formatFindFiles (find_files_matches homeWorkEntries ["home", "work"] (widenPattern "work") 1).1
        (find_files_matches homeWorkEntries ["home", "work"] (widenPattern "work") 1).2
    ∧ relStr ["main.py"] ∈
        (find_files_matches homeWorkEntries ["home", "work"] (widenPattern "work") 1).1 := by
  have h := c9_absolute_path_matching homeWorkFS ["home", "work"] ["home", "work"] "work" 1 false
    homeWorkEntries ["main.py"] (FSNode.file "pass\n")
    rfl ⟨"/home/".data, [], rfl⟩ rfl rfl rfl (by simp)
    (fun q h1 h2 h3 => by
      simp only [List.length_singleton] at h2
      exact absurd (List.eq_nil_of_length_eq_zero (by omega)) h1)
    rfl rfl (by decide)
  exact ⟨h.1, h.2.1 rfl⟩
